import Mathlib

/-!
Verification development for the GitHub contribution-heatmap pipeline of
`src/components/GitHubHeatmap.tsx`: a read-through cache over browser
local storage, a remote fetcher, and a pure week-grid builder.

The TypeScript component is shallowly embedded here:
* local storage becomes an explicit `Store` value (a map from string keys
  to stored cells) threaded through every operation;
* `Date.now()` becomes an explicit `now : Int` argument (epoch ms);
* the outcome of the single network request becomes an explicit
  `RemoteOutcome` argument;
* React state updates become the `LoadState` record produced by a run of
  the `loadContributions` effect, and the list of issued request URLs is
  returned alongside it.
-/

/-- `interface ContributionDay` of the source: one day cell of the grid;
an empty `date` marks a padding cell. -/
structure ContributionDay where
  date : String
  count : Nat
  level : Nat
deriving DecidableEq, Repr

/-- `interface GitHubContributionsData`: yearly totals plus the
chronological day sequence. `total` is the JS object `{[year: string]: number}`,
embedded as an association list. -/
structure GitHubContributionsData where
  total : List (String × Nat)
  contributions : List ContributionDay
deriving DecidableEq, Repr

/-- `getCacheKey` of the source:
`github_contributions_${username}_${year}`. -/
def getCacheKey (username : String) (year : Nat) : String :=
  "github_contributions_" ++ username ++ "_" ++ toString year

/-- `CACHE_EXPIRY = 24 * 60 * 60 * 1000` (24 hours in milliseconds). -/
def CACHE_EXPIRY : Int := 24 * 60 * 60 * 1000

/-- What local storage may hold under one key: a parseable serialized
`{data, timestamp}` entry, an unparseable string (`JSON.parse` throws),
or a cell whose very access makes the storage layer throw. -/
inductive Cell where
  | entry (data : GitHubContributionsData) (timestamp : Int)
  | garbage
  | faulty
deriving DecidableEq

/-- The backing key/value store (`localStorage`), as a total map. -/
abbrev Store := String → Option Cell

/-- `localStorage.setItem key v`, as a store update. -/
def setStore (key : String) (v : Cell) (s : Store) : Store :=
  fun k => if k = key then some v else s k

/-- `localStorage.removeItem key`, as a store update. -/
def removeKey (key : String) (s : Store) : Store :=
  fun k => if k = key then none else s k

/-- `getCachedData` of the source: read the key, parse, check
`now - timestamp < CACHE_EXPIRY`; on expiry remove the stale entry; any
thrown error (unparseable value, storage fault) is caught and the
function returns `null`. Returns the read result together with the
store after the read. -/
def getCachedData (username : String) (year : Nat) (now : Int) (s : Store) :
    Option GitHubContributionsData × Store :=
  match s (getCacheKey username year) with
  | none => (none, s)
  | some Cell.garbage => (none, s)
  | some Cell.faulty => (none, s)
  | some (Cell.entry data timestamp) =>
      if now - timestamp < CACHE_EXPIRY then (some data, s)
      else (none, removeKey (getCacheKey username year) s)

/-- `setCachedData` of the source: serialize `{data, timestamp: Date.now()}`
under the deterministic key (the successful-write path of
`localStorage.setItem`). -/
def setCachedData (username : String) (year : Nat)
    (data : GitHubContributionsData) (now : Int) (s : Store) : Store :=
  setStore (getCacheKey username year) (Cell.entry data now) s

/-- The failure the fetch path can throw: a non-success HTTP status
(`HTTP error! status: ${status}`), a rejected `fetch`, or a body that
fails to parse as JSON. -/
inductive FetchError where
  | http (status : Nat)
  | network
  | badBody
deriving DecidableEq

/-- The outcome of the single remote request a `fetchContributions` call
issues. -/
inductive RemoteOutcome where
  | ok (data : GitHubContributionsData)
  | httpError (status : Nat)
  | networkFailure
  | unparseableBody
deriving DecidableEq

/-- The URL `fetchContributions` requests:
`https://github-contributions-api.jogruber.de/v4/${username}?y=${year}`. -/
def requestUrl (username : String) (year : Nat) : String :=
  "https://github-contributions-api.jogruber.de/v4/" ++ username ++ "?y=" ++ toString year

/-- `fetchContributions` of the source: issue the request; throw on
`!response.ok` carrying the status; parse the body; on success write the
cache (`setCachedData`) and return the data. The store is only written
on the success path. -/
def fetchContributions (username : String) (year : Nat) (now : Int)
    (outcome : RemoteOutcome) (s : Store) :
    Except FetchError GitHubContributionsData × Store :=
  match outcome with
  | RemoteOutcome.httpError status => (Except.error (FetchError.http status), s)
  | RemoteOutcome.networkFailure => (Except.error FetchError.network, s)
  | RemoteOutcome.unparseableBody => (Except.error FetchError.badBody, s)
  | RemoteOutcome.ok data => (Except.ok data, setCachedData username year data now s)

/-- The React state of the component after a run of the load effect:
`contributions`, `totalContributions`, `loading`, `error`. -/
structure LoadState where
  contributions : List ContributionDay
  totalContributions : Nat
  loading : Bool
  error : Option String
deriving DecidableEq

/-- The initial component state: `useState([])`, `useState(true)`,
`useState(0)`, `useState(null)`. -/
def initialState : LoadState :=
  { contributions := [], totalContributions := 0, loading := true, error := none }

/-- `data.total[year.toString()] || 0`. -/
def lookupTotal (data : GitHubContributionsData) (year : Nat) : Nat :=
  (data.total.lookup (toString year)).getD 0

/-- The user-facing message the catch branch stores into `error`. -/
def fetchFailMsg : String := "获取GitHub数据失败，请检查用户名或网络连接"

/-- `loadContributions` of the source: try the cache; on a hit set the
state from the cached payload with no request; on a miss fetch (the one
request, recorded by its URL), set the state from the response, or on
any thrown error set the failure state. `loading` ends `false` on every
path (the `finally`). -/
def loadContributions (username : String) (year : Nat) (now : Int)
    (outcome : RemoteOutcome) (s : Store) : LoadState × Store × List String :=
  match getCachedData username year now s with
  | (some cachedData, s1) =>
      ({ contributions := cachedData.contributions,
         totalContributions := lookupTotal cachedData year,
         loading := false, error := none }, s1, [])
  | (none, s1) =>
      match fetchContributions username year now outcome s1 with
      | (Except.ok data, s2) =>
          ({ contributions := data.contributions,
             totalContributions := lookupTotal data year,
             loading := false, error := none }, s2, [requestUrl username year])
      | (Except.error _, s2) =>
          ({ contributions := [], totalContributions := 0,
             loading := false, error := some fetchFailMsg }, s2, [requestUrl username year])

/-- The `useEffect` body: `if (username) { loadContributions(); }` — the
empty username is falsy, so no load runs and the state `st` is left as
it is, the store untouched and no request issued. -/
def runEffect (username : String) (year : Nat) (now : Int)
    (outcome : RemoteOutcome) (s : Store) (st : LoadState) :
    LoadState × Store × List String :=
  if username = "" then (st, s, [])
  else loadContributions username year now outcome s

/-- A store with nothing in it. -/
def emptyStore : Store := fun _ => none

/-- Sample payload used by the concrete witnesses. -/
def wData : GitHubContributionsData :=
  { total := [("2024", 10)], contributions := [⟨"2024-01-01", 2, 1⟩] }

/-- A store holding a well-formed entry for `("alice", 2024)` stored at
epoch 0. -/
def wStore : Store :=
  setStore (getCacheKey "alice" 2024) (Cell.entry wData 0) emptyStore

/-- A store whose `("alice", 2024)` slot holds an unparseable string. -/
def wGarbageStore : Store :=
  setStore (getCacheKey "alice" 2024) Cell.garbage emptyStore

/-- A store whose `("alice", 2024)` slot faults on access. -/
def wFaultyStore : Store :=
  setStore (getCacheKey "alice" 2024) Cell.faulty emptyStore

/-! ## Cache Store and Data Fetcher theorems -/

/-- Claim C2 (amended): the cache key is exactly
`github_contributions_<entity>_<year>`; `setCachedData` stores exactly
under that key and touches no other key; `getCachedData` reads only that
key. -/
theorem cacheKey_deterministic (u : String) (y : Nat)
    (d : GitHubContributionsData) (now now2 : Int) (s s2 : Store) :
    getCacheKey u y = "github_contributions_" ++ u ++ "_" ++ toString y ∧
    setCachedData u y d now s (getCacheKey u y) = some (Cell.entry d now) ∧
    (∀ k, k ≠ getCacheKey u y → setCachedData u y d now s k = s k) ∧
    (s (getCacheKey u y) = s2 (getCacheKey u y) →
      (getCachedData u y now2 s).1 = (getCachedData u y now2 s2).1) := by
  refine ⟨rfl, ?_, ?_, ?_⟩
  · simp [setCachedData, setStore]
  · intro k hk
    simp [setCachedData, setStore, hk]
  · intro h
    unfold getCachedData
    rw [h]
    cases s2 (getCacheKey u y) with
    | none => rfl
    | some c =>
      cases c with
      | entry d ts => by_cases hlt : now2 - ts < CACHE_EXPIRY <;> simp [hlt]
      | garbage => rfl
      | faulty => rfl

/-- Claim C2 witness: the amended key facts at a concrete entity, year,
payload and store. -/
theorem cacheKey_deterministic_witness :
    setCachedData "alice" 2024 wData 5 emptyStore (getCacheKey "alice" 2024) =
        some (Cell.entry wData 5) ∧
    setCachedData "alice" 2024 wData 5 emptyStore "other" = emptyStore "other" ∧
    (getCachedData "alice" 2024 7 wStore).1 = (getCachedData "alice" 2024 7 wStore).1 := by
  refine ⟨(cacheKey_deterministic "alice" 2024 wData 5 5 emptyStore emptyStore).2.1,
    (cacheKey_deterministic "alice" 2024 wData 5 5 emptyStore emptyStore).2.2.1 "other"
      (by decide), ?_⟩
  exact (cacheKey_deterministic "alice" 2024 wData 5 7 wStore wStore).2.2.2 rfl

/-- Claim C2 counterexample: the key the code produces is not
`contributions_<entity>_<year>` — it carries the `github_` marker. -/
theorem cacheKey_not_bare : getCacheKey "alice" 2024 ≠ "contributions_alice_2024" := by
  decide

/-- Claim C3: with an entry stored under the key, a read at
`now - storedAt >= TTL` (TTL fixed at 24 hours in ms) returns absent and
removes the stale entry; a read at `now - storedAt < TTL` returns the
stored payload and leaves the store unchanged. -/
theorem cache_expiry (u : String) (y : Nat) (now ts : Int)
    (d : GitHubContributionsData) (s : Store)
    (h : s (getCacheKey u y) = some (Cell.entry d ts)) :
    CACHE_EXPIRY = 24 * 60 * 60 * 1000 ∧
    (CACHE_EXPIRY ≤ now - ts →
      getCachedData u y now s = (none, removeKey (getCacheKey u y) s)) ∧
    (now - ts < CACHE_EXPIRY → getCachedData u y now s = (some d, s)) := by
  refine ⟨rfl, ?_, ?_⟩ <;> intro hc <;> simp only [getCachedData, h]
  · rw [if_neg (not_lt.mpr hc)]
  · rw [if_pos hc]

/-- Claim C3 witness: a read of `wStore` (entry stored at epoch 0) at
`now = CACHE_EXPIRY` misses and removes the entry; a read at `now = 100`
hits. -/
theorem cache_expiry_witness :
    getCachedData "alice" 2024 86400000 wStore =
        (none, removeKey (getCacheKey "alice" 2024) wStore) ∧
    getCachedData "alice" 2024 100 wStore = (some wData, wStore) := by
  have h : wStore (getCacheKey "alice" 2024) = some (Cell.entry wData 0) := by
    simp [wStore, setStore]
  exact ⟨(cache_expiry "alice" 2024 86400000 0 wData wStore h).2.1 (by decide),
    (cache_expiry "alice" 2024 100 0 wData wStore h).2.2 (by decide)⟩

/-- Claim C8: every failed cache read — missing entry, unparseable stored
value, or storage-layer fault — returns absent with the store left
unchanged; `getCachedData` is total, so no cache fault escapes it. -/
theorem cache_read_fails_soft (u : String) (y : Nat) (now : Int) (s : Store) :
    (s (getCacheKey u y) = none → getCachedData u y now s = (none, s)) ∧
    (s (getCacheKey u y) = some Cell.garbage → getCachedData u y now s = (none, s)) ∧
    (s (getCacheKey u y) = some Cell.faulty → getCachedData u y now s = (none, s)) := by
  refine ⟨?_, ?_, ?_⟩ <;> intro h <;> unfold getCachedData <;> rw [h]

/-- Claim C8 witness: the three failure shapes at concrete stores. -/
theorem cache_read_fails_soft_witness :
    getCachedData "alice" 2024 5 emptyStore = (none, emptyStore) ∧
    getCachedData "alice" 2024 5 wGarbageStore = (none, wGarbageStore) ∧
    getCachedData "alice" 2024 5 wFaultyStore = (none, wFaultyStore) := by
  refine ⟨(cache_read_fails_soft "alice" 2024 5 emptyStore).1 rfl,
    (cache_read_fails_soft "alice" 2024 5 wGarbageStore).2.1 (by simp [wGarbageStore, setStore]),
    (cache_read_fails_soft "alice" 2024 5 wFaultyStore).2.2 (by simp [wFaultyStore, setStore])⟩

/-- Claim C9: `set` then `get` under the same key within the TTL returns
exactly the stored payload (and leaves the store as `set` left it). -/
theorem cache_round_trip (u : String) (y : Nat) (d : GitHubContributionsData)
    (t1 t2 : Int) (s : Store) (h : t2 - t1 < CACHE_EXPIRY) :
    getCachedData u y t2 (setCachedData u y d t1 s) =
      (some d, setCachedData u y d t1 s) := by
  have hk : setCachedData u y d t1 s (getCacheKey u y) = some (Cell.entry d t1) := by
    simp [setCachedData, setStore]
  simp only [getCachedData, hk]
  rw [if_pos h]

/-- Claim C9 witness: the round trip at a concrete key, payload and
timestamps one hour apart. -/
theorem cache_round_trip_witness :
    getCachedData "alice" 2024 3600000 (setCachedData "alice" 2024 wData 0 emptyStore) =
      (some wData, setCachedData "alice" 2024 wData 0 emptyStore) :=
  cache_round_trip "alice" 2024 wData 0 3600000 emptyStore (by decide)

/-- Claim C4: on a present, unexpired entry the load returns the cached
payload and its year total, issues no request and leaves the store
unchanged, whatever the remote would have answered. -/
theorem load_cache_hit (u : String) (y : Nat) (now ts : Int)
    (d : GitHubContributionsData) (outcome : RemoteOutcome) (s : Store)
    (h : s (getCacheKey u y) = some (Cell.entry d ts))
    (hfresh : now - ts < CACHE_EXPIRY) :
    loadContributions u y now outcome s =
      ({ contributions := d.contributions, totalContributions := lookupTotal d y,
         loading := false, error := none }, s, []) := by
  have hget : getCachedData u y now s = (some d, s) := by
    simp only [getCachedData, h]
    rw [if_pos hfresh]
  unfold loadContributions
  rw [hget]

/-- Claim C4 witness: a load against `wStore` one hour after the entry
was stored returns the cached payload with total 10 and no request. -/
theorem load_cache_hit_witness :
    loadContributions "alice" 2024 3600000 RemoteOutcome.networkFailure wStore =
      ({ contributions := [⟨"2024-01-01", 2, 1⟩], totalContributions := 10,
         loading := false, error := none }, wStore, []) := by
  have h := load_cache_hit "alice" 2024 3600000 0 wData RemoteOutcome.networkFailure
    wStore (by simp [wStore, setStore]) (by decide)
  rw [h]
  rfl

/-- Claim C5: a non-success HTTP status makes the fetch step return a
`FetchError` carrying that status with the store unwritten; through the
load path (cache empty) the failure state is set and the store is still
unchanged, with exactly the one request issued. -/
theorem fetch_http_error (u : String) (y : Nat) (now : Int) (status : Nat) (s : Store) :
    fetchContributions u y now (RemoteOutcome.httpError status) s =
      (Except.error (FetchError.http status), s) ∧
    (s (getCacheKey u y) = none →
      loadContributions u y now (RemoteOutcome.httpError status) s =
        ({ contributions := [], totalContributions := 0,
           loading := false, error := some fetchFailMsg }, s, [requestUrl u y])) := by
  refine ⟨rfl, ?_⟩
  intro h
  have hget : getCachedData u y now s = (none, s) := by
    simp only [getCachedData, h]
  unfold loadContributions
  rw [hget]
  rfl

/-- Claim C5 witness: a 404 against the empty store. -/
theorem fetch_http_error_witness :
    fetchContributions "alice" 2024 5 (RemoteOutcome.httpError 404) emptyStore =
      (Except.error (FetchError.http 404), emptyStore) ∧
    loadContributions "alice" 2024 5 (RemoteOutcome.httpError 404) emptyStore =
      ({ contributions := [], totalContributions := 0,
         loading := false, error := some fetchFailMsg }, emptyStore,
        [requestUrl "alice" 2024]) :=
  ⟨(fetch_http_error "alice" 2024 5 404 emptyStore).1,
   (fetch_http_error "alice" 2024 5 404 emptyStore).2 rfl⟩

/-- Claim C10: with the empty username the effect runs no load: the state
(initially `loading = true`) is unchanged, the store is untouched, and no
request is issued. -/
theorem effect_empty_username (y : Nat) (now : Int) (outcome : RemoteOutcome)
    (s : Store) :
    runEffect "" y now outcome s initialState = (initialState, s, []) ∧
    initialState.loading = true := by
  exact ⟨by unfold runEffect; rw [if_pos rfl], rfl⟩

/-! ## Week Grid Builder -/

/-- The weekday index (0=Sunday..6=Saturday) of January 1 of `year`,
the value `new Date(year, 0, 1).getDay()` computes for Gregorian years. -/
def jan1Weekday (year : Nat) : Nat :=
  (year + (year - 1) / 4 - (year - 1) / 100 + (year - 1) / 400) % 7

/-- The padding cell `{ date: "", count: 0, level: 0 }` the builder
pushes. -/
def padCell : ContributionDay := ⟨"", 0, 0⟩

/-- One iteration of the `contributions.forEach` loop of `getWeeks`:
push the day onto the current week; when it reaches 7 cells seal it into
the output and start a new week. -/
def weekStep (acc : List (List ContributionDay) × List ContributionDay)
    (day : ContributionDay) : List (List ContributionDay) × List ContributionDay :=
  let cw := acc.2 ++ [day]
  if cw.length = 7 then (acc.1 ++ [cw], []) else (acc.1, cw)

/-- `getWeeks` of the source, as a function of the `contributions` state
and the `year` prop: leading padding for the weekday of January 1, the
`forEach` loop, then the final partial week padded to 7. -/
def getWeeks (contributions : List ContributionDay) (year : Nat) :
    List (List ContributionDay) :=
  if contributions.length = 0 then []
  else
    let firstDayOfWeek := jan1Weekday year
    let res := contributions.foldl weekStep ([], List.replicate firstDayOfWeek padCell)
    if res.2.length > 0 then
      res.1 ++ [res.2 ++ List.replicate (7 - res.2.length) padCell]
    else res.1

/-- The number of trailing cells of a week that look like padding (empty
date). -/
def trailingPadCount (week : List ContributionDay) : Nat :=
  (week.reverse.takeWhile (fun c => c.date == "")).length

/-- Recursive description of the `forEach` loop: the completed groups
and the leftover current week that processing `days` from current week
`cw` produces. -/
def chunkAux (cw : List ContributionDay) :
    List ContributionDay → List (List ContributionDay) × List ContributionDay
  | [] => ([], cw)
  | d :: ds =>
      if (cw ++ [d]).length = 7 then
        ((cw ++ [d]) :: (chunkAux [] ds).1, (chunkAux [] ds).2)
      else chunkAux (cw ++ [d]) ds

/-- Unfolding equation for `chunkAux` on a cons. -/
theorem chunkAux_cons (cw : List ContributionDay) (d : ContributionDay)
    (ds : List ContributionDay) :
    chunkAux cw (d :: ds) =
      if (cw ++ [d]).length = 7 then
        ((cw ++ [d]) :: (chunkAux [] ds).1, (chunkAux [] ds).2)
      else chunkAux (cw ++ [d]) ds := by
  rfl

/-- The `forEach` loop is `chunkAux`: folding `weekStep` from sealed
weeks `ws` and current week `cw` appends the completed groups and leaves
the final current week. -/
theorem foldl_weekStep (ds : List ContributionDay) :
    ∀ (ws : List (List ContributionDay)) (cw : List ContributionDay),
      ds.foldl weekStep (ws, cw) = (ws ++ (chunkAux cw ds).1, (chunkAux cw ds).2) := by
  induction ds with
  | nil => intro ws cw; simp [chunkAux]
  | cons d ds ih =>
      intro ws cw
      rw [List.foldl_cons, chunkAux_cons]
      show List.foldl weekStep (weekStep (ws, cw) d) ds = _
      simp only [weekStep]
      by_cases h : (cw ++ [d]).length = 7
      · rw [if_pos h, if_pos h, ih]
        simp
      · rw [if_neg h, if_neg h, ih]

/-- Concatenating the completed groups and the leftover current week
recovers the processed input. -/
theorem chunkAux_flatten (ds : List ContributionDay) :
    ∀ cw, (chunkAux cw ds).1.flatten ++ (chunkAux cw ds).2 = cw ++ ds := by
  induction ds with
  | nil => intro cw; simp [chunkAux]
  | cons d ds ih =>
      intro cw
      rw [chunkAux_cons]
      by_cases h : (cw ++ [d]).length = 7
      · rw [if_pos h]
        simp only [List.flatten_cons, List.append_assoc, ih []]
        simp
      · rw [if_neg h, ih (cw ++ [d])]
        simp

/-- Every completed group has exactly 7 cells (given the current week
holds fewer than 7). -/
theorem chunkAux_groups_length (ds : List ContributionDay) :
    ∀ cw, cw.length < 7 → ∀ g ∈ (chunkAux cw ds).1, g.length = 7 := by
  induction ds with
  | nil => intro cw _ g hg; simp [chunkAux] at hg
  | cons d ds ih =>
      intro cw hcw g hg
      rw [chunkAux_cons] at hg
      by_cases h : (cw ++ [d]).length = 7
      · rw [if_pos h] at hg
        rcases List.mem_cons.mp hg with rfl | hg2
        · exact h
        · exact ih [] (by simp) g hg2
      · rw [if_neg h] at hg
        refine ih (cw ++ [d]) ?_ g hg
        simp only [List.length_append, List.length_singleton] at h ⊢
        omega

/-- The leftover current week holds `(|cw| + |ds|) % 7` cells. -/
theorem chunkAux_rem_length (ds : List ContributionDay) :
    ∀ cw, cw.length < 7 → (chunkAux cw ds).2.length = (cw.length + ds.length) % 7 := by
  induction ds with
  | nil => intro cw hcw; simp [chunkAux, Nat.mod_eq_of_lt hcw]
  | cons d ds ih =>
      intro cw hcw
      rw [chunkAux_cons]
      by_cases h : (cw ++ [d]).length = 7
      · rw [if_pos h]
        have h7 : cw.length + 1 = 7 := by simpa using h
        have h0 := ih [] (by simp)
        simp only [List.length_nil] at h0
        rw [h0]
        simp only [List.length_cons]
        omega
      · rw [if_neg h]
        have hlt : (cw ++ [d]).length < 7 := by
          simp only [List.length_append, List.length_singleton] at h ⊢
          omega
        rw [ih (cw ++ [d]) hlt]
        simp only [List.length_append, List.length_singleton, List.length_cons,
          List.length_nil]
        omega

/-- Every cell of a completed group or of the leftover current week came
from the current week or the processed input. -/
theorem chunkAux_mem (ds : List ContributionDay) :
    ∀ cw, (∀ g ∈ (chunkAux cw ds).1, ∀ c ∈ g, c ∈ cw ++ ds) ∧
      (∀ c ∈ (chunkAux cw ds).2, c ∈ cw ++ ds) := by
  induction ds with
  | nil =>
      intro cw
      refine ⟨fun g hg => by simp [chunkAux] at hg, fun c hc => ?_⟩
      simp only [chunkAux] at hc
      simp [hc]
  | cons d ds ih =>
      intro cw
      have hrw : cw ++ d :: ds = (cw ++ [d]) ++ ds := by simp
      rw [chunkAux_cons]
      by_cases h : (cw ++ [d]).length = 7
      · rw [if_pos h]
        refine ⟨fun g hg c hc => ?_, fun c hc => ?_⟩
        · rcases List.mem_cons.mp hg with rfl | hg2
          · rw [hrw]
            exact List.mem_append_left _ hc
          · rw [hrw]
            have := (ih []).1 g hg2 c hc
            simp only [List.nil_append] at this
            exact List.mem_append_right _ this
        · rw [hrw]
          have := (ih []).2 c hc
          simp only [List.nil_append] at this
          exact List.mem_append_right _ this
      · rw [if_neg h]
        refine ⟨fun g hg c hc => ?_, fun c hc => ?_⟩
        · rw [hrw]
          exact (ih (cw ++ [d])).1 g hg c hc
        · rw [hrw]
          exact (ih (cw ++ [d])).2 c hc

/-- The weekday of January 1 is a valid weekday index. -/
theorem jan1Weekday_lt (year : Nat) : jan1Weekday year < 7 :=
  Nat.mod_lt _ (by norm_num)

/-- `getWeeks` on a non-empty input, through `chunkAux`. -/
theorem getWeeks_eq (days : List ContributionDay) (year : Nat) (h : days ≠ []) :
    getWeeks days year =
      if 0 < (chunkAux (List.replicate (jan1Weekday year) padCell) days).2.length then
        (chunkAux (List.replicate (jan1Weekday year) padCell) days).1 ++
          [(chunkAux (List.replicate (jan1Weekday year) padCell) days).2 ++
            List.replicate
              (7 - (chunkAux (List.replicate (jan1Weekday year) padCell) days).2.length)
              padCell]
      else (chunkAux (List.replicate (jan1Weekday year) padCell) days).1 := by
  unfold getWeeks
  rw [if_neg (by simpa using h)]
  simp only [foldl_weekStep days [] (List.replicate (jan1Weekday year) padCell),
    List.nil_append]

/-- The cells of the grid in order: leading padding, the days, trailing
padding. -/
theorem getWeeks_flatten (days : List ContributionDay) (year : Nat) (h : days ≠ []) :
    (getWeeks days year).flatten =
      List.replicate (jan1Weekday year) padCell ++ days ++
        List.replicate ((7 - (jan1Weekday year + days.length) % 7) % 7) padCell := by
  have hinit : (List.replicate (jan1Weekday year) padCell).length < 7 := by
    simpa using jan1Weekday_lt year
  have hr := chunkAux_rem_length days (List.replicate (jan1Weekday year) padCell) hinit
  rw [List.length_replicate] at hr
  have hj := chunkAux_flatten days (List.replicate (jan1Weekday year) padCell)
  rw [getWeeks_eq days year h]
  by_cases h0 : (chunkAux (List.replicate (jan1Weekday year) padCell) days).2.length = 0
  · rw [if_neg (by omega)]
    have hrem := List.length_eq_zero.mp h0
    rw [hrem, List.append_nil] at hj
    have hc : (7 - (jan1Weekday year + days.length) % 7) % 7 = 0 := by omega
    rw [hc, hj]
    simp
  · rw [if_pos (by omega)]
    rw [List.flatten_append, List.flatten_cons, List.flatten_nil, List.append_nil]
    have hc : (7 - (jan1Weekday year + days.length) % 7) % 7 =
        7 - (chunkAux (List.replicate (jan1Weekday year) padCell) days).2.length := by
      omega
    rw [hc, ← List.append_assoc, hj]

/-- Every week of the grid has exactly 7 cells. -/
theorem getWeeks_length7 (days : List ContributionDay) (year : Nat) :
    ∀ wk ∈ getWeeks days year, wk.length = 7 := by
  intro wk hwk
  by_cases h : days = []
  · subst h
    simp [getWeeks] at hwk
  · have hinit : (List.replicate (jan1Weekday year) padCell).length < 7 := by
      simpa using jan1Weekday_lt year
    have hr := chunkAux_rem_length days (List.replicate (jan1Weekday year) padCell) hinit
    have hr7 : (chunkAux (List.replicate (jan1Weekday year) padCell) days).2.length < 7 := by
      rw [hr]
      exact Nat.mod_lt _ (by norm_num)
    rw [getWeeks_eq days year h] at hwk
    by_cases h0 : 0 < (chunkAux (List.replicate (jan1Weekday year) padCell) days).2.length
    · rw [if_pos h0] at hwk
      rcases List.mem_append.mp hwk with hg | hl
      · exact chunkAux_groups_length days _ hinit wk hg
      · have hwl : wk =
            (chunkAux (List.replicate (jan1Weekday year) padCell) days).2 ++
              List.replicate
                (7 - (chunkAux (List.replicate (jan1Weekday year) padCell) days).2.length)
                padCell := by
          simpa using hl
        rw [hwl]
        simp only [List.length_append, List.length_replicate]
        omega
    · rw [if_neg h0] at hwk
      exact chunkAux_groups_length days _ hinit wk hwk

/-- Every cell of the grid is a real input day or the padding cell. -/
theorem getWeeks_cells (days : List ContributionDay) (year : Nat) :
    ∀ wk ∈ getWeeks days year, ∀ c ∈ wk, c ∈ days ∨ c = padCell := by
  intro wk hwk c hc
  by_cases h : days = []
  · subst h
    simp [getWeeks] at hwk
  · have hsplit : c ∈ List.replicate (jan1Weekday year) padCell ++ days → c ∈ days ∨ c = padCell := by
      intro hm
      rcases List.mem_append.mp hm with hp | hd
      · exact Or.inr (List.eq_of_mem_replicate hp)
      · exact Or.inl hd
    rw [getWeeks_eq days year h] at hwk
    by_cases h0 : 0 < (chunkAux (List.replicate (jan1Weekday year) padCell) days).2.length
    · rw [if_pos h0] at hwk
      rcases List.mem_append.mp hwk with hg | hl
      · exact hsplit ((chunkAux_mem days (List.replicate (jan1Weekday year) padCell)).1 wk hg c hc)
      · have hwl : wk =
            (chunkAux (List.replicate (jan1Weekday year) padCell) days).2 ++
              List.replicate
                (7 - (chunkAux (List.replicate (jan1Weekday year) padCell) days).2.length)
                padCell := by
          simpa using hl
        rw [hwl] at hc
        rcases List.mem_append.mp hc with h2 | hp
        · exact hsplit ((chunkAux_mem days (List.replicate (jan1Weekday year) padCell)).2 c h2)
        · exact Or.inr (List.eq_of_mem_replicate hp)
    · rw [if_neg h0] at hwk
      exact hsplit ((chunkAux_mem days (List.replicate (jan1Weekday year) padCell)).1 wk hwk c hc)

/-- A non-empty input yields a non-empty grid. -/
theorem getWeeks_ne_nil (days : List ContributionDay) (year : Nat) (h : days ≠ []) :
    getWeeks days year ≠ [] := by
  intro he
  have hf := getWeeks_flatten days year h
  rw [he, List.flatten_nil] at hf
  have hlen := congrArg List.length hf
  simp only [List.length_nil, List.length_append, List.length_replicate] at hlen
  have : days.length = 0 := by omega
  exact h (List.length_eq_zero.mp this)

/-- Six concrete days (a year starting Monday: 1 + 6 ≡ 0 mod 7). -/
def wDays6 : List ContributionDay :=
  [⟨"2024-01-01", 1, 1⟩, ⟨"2024-01-02", 2, 1⟩, ⟨"2024-01-03", 3, 2⟩,
   ⟨"2024-01-04", 4, 2⟩, ⟨"2024-01-05", 5, 3⟩, ⟨"2024-01-06", 6, 3⟩]

/-- Seven concrete days of 2025 (a year starting Wednesday). -/
def wDays7 : List ContributionDay :=
  [⟨"2025-01-01", 1, 1⟩, ⟨"2025-01-02", 2, 1⟩, ⟨"2025-01-03", 3, 2⟩,
   ⟨"2025-01-04", 4, 2⟩, ⟨"2025-01-05", 5, 3⟩, ⟨"2025-01-06", 6, 3⟩,
   ⟨"2025-01-07", 7, 4⟩]

/-- The one week `getWeeks` builds from a single day of 2024. -/
def wWeek : List ContributionDay :=
  [padCell, ⟨"2024-01-01", 2, 1⟩, padCell, padCell, padCell, padCell, padCell]

/-- Claim C6: every output week has exactly 7 cells, and every cell is a
real input day or the padding cell, whose date is empty. -/
theorem getWeeks_invariant (days : List ContributionDay) (year : Nat) :
    padCell.date = "" ∧
    ∀ wk ∈ getWeeks days year, wk.length = 7 ∧ ∀ c ∈ wk, c ∈ days ∨ c = padCell :=
  ⟨rfl, fun wk hwk =>
    ⟨getWeeks_length7 days year wk hwk, getWeeks_cells days year wk hwk⟩⟩

/-- Claim C6 witness: the invariant on the concrete week built from one
day of 2024. -/
theorem getWeeks_invariant_witness :
    wWeek.length = 7 ∧
    ∀ c ∈ wWeek, c ∈ [(⟨"2024-01-01", 2, 1⟩ : ContributionDay)] ∨ c = padCell := by
  have hm : wWeek ∈ getWeeks [(⟨"2024-01-01", 2, 1⟩ : ContributionDay)] 2024 := by
    decide
  exact (getWeeks_invariant [⟨"2024-01-01", 2, 1⟩] 2024).2 wWeek hm

/-- Claim C7: for a non-empty input and a year whose January 1 falls on
weekday `w`, the first week opens with `w` padding cells and its cell at
slot `w` is the first real day. -/
theorem getWeeks_leading_padding (days : List ContributionDay) (year : Nat)
    (h : days ≠ []) :
    ∃ fw, (getWeeks days year).head? = some fw ∧
      fw.take (jan1Weekday year) = List.replicate (jan1Weekday year) padCell ∧
      fw[jan1Weekday year]? = days.head? := by
  obtain ⟨fw, rest, hW⟩ := List.exists_cons_of_ne_nil (getWeeks_ne_nil days year h)
  have h7 : fw.length = 7 :=
    getWeeks_length7 days year fw (by rw [hW]; exact List.mem_cons_self _ _)
  have hf := getWeeks_flatten days year h
  rw [hW, List.flatten_cons] at hf
  have hfw : fw = (List.replicate (jan1Weekday year) padCell ++ days ++
      List.replicate ((7 - (jan1Weekday year + days.length) % 7) % 7) padCell).take 7 := by
    rw [← hf, List.take_left' h7]
  refine ⟨fw, by rw [hW]; rfl, ?_, ?_⟩
  · rw [hfw, List.take_take]
    have hmin : jan1Weekday year ⊓ 7 = jan1Weekday year :=
      min_eq_left (le_of_lt (jan1Weekday_lt year))
    rw [hmin, List.append_assoc]
    exact List.take_left' (List.length_replicate _ _)
  · rw [hfw, List.getElem?_take, if_pos (jan1Weekday_lt year), List.append_assoc,
      List.getElem?_append_right (by simp)]
    simp only [List.length_replicate, Nat.sub_self]
    rw [List.getElem?_append, if_pos (List.length_pos.mpr h), ← List.head?_eq_getElem?]

/-- Claim C7 witness: the single-day grid of 2024 (January 1 a Monday). -/
theorem getWeeks_leading_padding_witness :
    ∃ fw, (getWeeks [(⟨"2024-01-01", 2, 1⟩ : ContributionDay)] 2024).head? = some fw ∧
      fw.take (jan1Weekday 2024) = List.replicate (jan1Weekday 2024) padCell ∧
      fw[jan1Weekday 2024]? = ([(⟨"2024-01-01", 2, 1⟩ : ContributionDay)]).head? :=
  getWeeks_leading_padding [⟨"2024-01-01", 2, 1⟩] 2024 (by decide)

/-- Claim C1 counterexample: seven days (so the real-day count is `0 mod 7`)
in a year starting Wednesday still get trailing padding — the last week
ends in 4 padding cells, because the trailing padding depends on the
leading offset too. -/
theorem trailing_padding_mod_cex :
    wDays7.length % 7 = 0 ∧
    trailingPadCount ((getWeeks wDays7 2025).getLastD []) = 4 := by
  decide

/-- Claim C1 (amended): with `w` the weekday of January 1 and
`r = (w + |days|) % 7`, a zero `r` means the grid is exactly the leading
padding followed by the days (no trailing padding), and a positive `r`
means the last week is the final `r` cells of (leading padding ++ days)
followed by exactly `7 - r` trailing padding cells. -/
theorem getWeeks_trailing_padding (days : List ContributionDay) (year : Nat)
    (h : days ≠ []) :
    ((jan1Weekday year + days.length) % 7 = 0 →
      (getWeeks days year).flatten = List.replicate (jan1Weekday year) padCell ++ days) ∧
    (0 < (jan1Weekday year + days.length) % 7 →
      (getWeeks days year).getLast? = some
        ((List.replicate (jan1Weekday year) padCell ++ days).drop
            (jan1Weekday year + days.length - (jan1Weekday year + days.length) % 7) ++
          List.replicate (7 - (jan1Weekday year + days.length) % 7) padCell)) := by
  have hinit : (List.replicate (jan1Weekday year) padCell).length < 7 := by
    simpa using jan1Weekday_lt year
  have hr := chunkAux_rem_length days (List.replicate (jan1Weekday year) padCell) hinit
  rw [List.length_replicate] at hr
  have hj := chunkAux_flatten days (List.replicate (jan1Weekday year) padCell)
  constructor
  · intro h0
    rw [getWeeks_flatten days year h, h0]
    simp
  · intro h0
    rw [getWeeks_eq days year h, if_pos (by omega), List.getLast?_concat]
    have hglen : (chunkAux (List.replicate (jan1Weekday year) padCell) days).1.flatten.length =
        jan1Weekday year + days.length - (jan1Weekday year + days.length) % 7 := by
      have hl := congrArg List.length hj
      simp only [List.length_append, List.length_replicate] at hl
      omega
    have hdrop : (List.replicate (jan1Weekday year) padCell ++ days).drop
        (jan1Weekday year + days.length - (jan1Weekday year + days.length) % 7) =
        (chunkAux (List.replicate (jan1Weekday year) padCell) days).2 := by
      rw [← hj]
      exact List.drop_left' hglen
    rw [hr, ← hdrop]

/-- Claim C1 witness: the amended trailing-padding facts at two concrete
inputs — six days of 2024 (`r = 0`) and seven days of 2025 (`r = 3`). -/
theorem getWeeks_trailing_padding_witness :
    (getWeeks wDays6 2024).flatten = List.replicate (jan1Weekday 2024) padCell ++ wDays6 ∧
    (getWeeks wDays7 2025).getLast? = some
      ((List.replicate (jan1Weekday 2025) padCell ++ wDays7).drop
          (jan1Weekday 2025 + wDays7.length - (jan1Weekday 2025 + wDays7.length) % 7) ++
        List.replicate (7 - (jan1Weekday 2025 + wDays7.length) % 7) padCell) :=
  ⟨(getWeeks_trailing_padding wDays6 2024 (by decide)).1 (by decide),
   (getWeeks_trailing_padding wDays7 2025 (by decide)).2 (by decide)⟩
